import Mathlib

/-!
Verification of the HIP module / kernel-dispatch subsystem (`src/hip_module.cpp`)
against its natural-language specification.

The C++ source is shallowly embedded: pure computations (ELF footprint, symbol
search, argument packing, AQL packet construction) become Lean functions over
`Nat` and `List Nat` byte buffers; the stateful API entry points become explicit
state-passing functions over small environment records that capture the results
of the external HSA / ELFIO collaborator calls (which are out of scope per §1 of
the spec).  Machine integers are modelled as `Nat` with explicit `% 2 ^ w`
truncation where the C code narrows a value into a fixed-width packet field.
-/

namespace HipModule

/-- `hipError_t` status codes used by this translation unit. -/
inductive hipError where
  | hipSuccess
  | hipErrorInvalidValue
  | hipErrorInvalidContext
  | hipErrorInvalidDevice
  | hipErrorNotInitialized
  | hipErrorNotFound
  | hipErrorFileNotFound
  | hipErrorOutOfMemory
  | hipErrorSharedObjectInitFailed
  deriving DecidableEq, Repr

open hipError

/-! ### Byte buffers

The packed kernel-argument buffer of `ihipModuleLaunchKernel` is modelled as a
`List Nat` of bytes.  `writeBytes buf off src` is `memcpy(buf + off, src,
src.length)` into a fixed-size allocation: bytes that fall past the end of
`buf` are dropped (in C they would be an out-of-bounds write). -/

def writeBytes : List Nat → Nat → List Nat → List Nat
  | [], _, _ => []
  | buf, _, [] => buf
  | _ :: bs, 0, s :: ss => s :: writeBytes bs 0 ss
  | b :: bs, o + 1, src => b :: writeBytes bs o src

/-- Read `n` bytes starting at offset `off`. -/
def readBytes (buf : List Nat) (off n : Nat) : List Nat :=
  (buf.drop off).take n

/-- The positional packing loop of `ihipModuleLaunchKernel` (hip_module.cpp
lines 494-498): for each `(size, align, param)` triple, copy `size` bytes of
the caller's parameter to the write cursor, then advance the cursor by
`align`. -/
def packLoop : List Nat → Nat → List (Nat × Nat × List Nat) → List Nat
  | buf, _, [] => buf
  | buf, idx, (sz, al, p) :: rest =>
      packLoop (writeBytes buf idx (p.take sz)) (idx + al) rest

/-- Zip the per-parameter sizes, alignment strides and caller pointers the way
the C loop indexes them (`pl.Size[i]`, `pl.Align[i]`, `kernelParams[i]`). -/
def zip3 : List Nat → List Nat → List (List Nat) → List (Nat × Nat × List Nat)
  | sz :: szs, al :: als, p :: ps => (sz, al, p) :: zip3 szs als ps
  | _, _, _ => []

/-! ### Kernel launch: data model

`struct ihipKernArgInfo` (hip_module.cpp lines 51-57): the per-kernel argument
layout looked up by kernel name in the global `kernelArguments` map. -/

structure ihipKernArgInfo where
  Size : List Nat
  Align : List Nat
  ArgType : List String
  ArgName : List String
  totalSize : Nat
  deriving DecidableEq, Repr

/-- `struct ihipModuleSymbol_t` (hip_module.cpp lines 69-74), the target of a
`hipFunction_t` handle. -/
structure ihipModuleSymbol_t where
  _object : Nat
  _groupSegmentSize : Nat
  _privateSegmentSize : Nat
  _name : String
  deriving DecidableEq, Repr

/-- One `void*` slot of the `extra` launch-parameter array.  The three marker
values are the `HIP_LAUNCH_PARAM_BUFFER_POINTER` / `HIP_LAUNCH_PARAM_BUFFER_SIZE`
/ `HIP_LAUNCH_PARAM_END` sentinels from the HIP runtime header; `ptr` is any
other pointer value. -/
inductive LaunchSlot where
  | bufferPointerMarker
  | bufferSizeMarker
  | endMarker
  | ptr (addr : Nat)
  deriving DecidableEq, Repr

/-- `hsa_kernel_dispatch_packet_t` as filled in by `ihipModuleLaunchKernel`
(hip_module.cpp lines 523-549).  Field widths follow the HSA packet format:
`workgroup_size_*`, `setup` and `header` are 16-bit, `grid_size_*`,
`group_segment_size` and `private_segment_size` are 32-bit, `kernel_object` is
64-bit. -/
structure hsaKernelDispatchPacket where
  workgroup_size_x : Nat
  workgroup_size_y : Nat
  workgroup_size_z : Nat
  grid_size_x : Nat
  grid_size_y : Nat
  grid_size_z : Nat
  group_segment_size : Nat
  private_segment_size : Nat
  kernel_object : Nat
  setup : Nat
  header : Nat
  deriving DecidableEq, Repr

/-! Constants from the HSA runtime headers (external collaborator; values per
the HSA Platform System Architecture specification used by `hsa.h`). -/

def HSA_PACKET_TYPE_KERNEL_DISPATCH : Nat := 2
def HSA_PACKET_HEADER_TYPE : Nat := 0
def HSA_PACKET_HEADER_BARRIER : Nat := 8
def HSA_PACKET_HEADER_ACQUIRE_FENCE_SCOPE : Nat := 9
def HSA_PACKET_HEADER_RELEASE_FENCE_SCOPE : Nat := 11
def HSA_FENCE_SCOPE_AGENT : Nat := 1
def HSA_FENCE_SCOPE_SYSTEM : Nat := 2
def HSA_KERNEL_DISPATCH_PACKET_SETUP_DIMENSIONS : Nat := 0

/-- The `aql.header` computation of hip_module.cpp lines 540-549: dispatch
type, barrier bit, and acquire/release fence scopes chosen by the global
`HCC_OPT_FLUSH` flag. -/
def aqlHeader (hccOptFlush : Bool) : Nat :=
  let base := (HSA_PACKET_TYPE_KERNEL_DISPATCH <<< HSA_PACKET_HEADER_TYPE) |||
              (1 <<< HSA_PACKET_HEADER_BARRIER)
  if hccOptFlush then
    base ||| (HSA_FENCE_SCOPE_AGENT <<< HSA_PACKET_HEADER_ACQUIRE_FENCE_SCOPE) |||
             (HSA_FENCE_SCOPE_AGENT <<< HSA_PACKET_HEADER_RELEASE_FENCE_SCOPE)
  else
    base ||| (HSA_FENCE_SCOPE_SYSTEM <<< HSA_PACKET_HEADER_ACQUIRE_FENCE_SCOPE) |||
             (HSA_FENCE_SCOPE_SYSTEM <<< HSA_PACKET_HEADER_RELEASE_FENCE_SCOPE)

/-- The AQL packet built at hip_module.cpp lines 523-549 (the geometry
arguments are the uint32 parameters of `ihipModuleLaunchKernel`; narrowing
into the packet fields truncates). -/
def buildAql (f : ihipModuleSymbol_t)
    (globalWorkSizeX globalWorkSizeY globalWorkSizeZ : Nat)
    (localWorkSizeX localWorkSizeY localWorkSizeZ : Nat)
    (sharedMemBytes : Nat) (hccOptFlush : Bool) : hsaKernelDispatchPacket where
  workgroup_size_x := localWorkSizeX % 2 ^ 16
  workgroup_size_y := localWorkSizeY % 2 ^ 16
  workgroup_size_z := localWorkSizeZ % 2 ^ 16
  grid_size_x := globalWorkSizeX % 2 ^ 32
  grid_size_y := globalWorkSizeY % 2 ^ 32
  grid_size_z := globalWorkSizeZ % 2 ^ 32
  group_segment_size := (f._groupSegmentSize + sharedMemBytes) % 2 ^ 32
  private_segment_size := f._privateSegmentSize % 2 ^ 32
  kernel_object := f._object % 2 ^ 64
  setup := 3 <<< HSA_KERNEL_DISPATCH_PACKET_SETUP_DIMENSIONS
  header := aqlHeader hccOptFlush

/-- The kernel-argument buffer handed to `dispatch_hsa_kernel` (`config[1]`):
either the heap buffer produced by positional packing, or the pointer found in
slot 1 of the `extra` array. -/
inductive KernArg where
  | packed (buf : List Nat)
  | given (slot : LaunchSlot)
  deriving DecidableEq, Repr

/-- What `lp.av->dispatch_hsa_kernel(&aql, config[1], kernArgSize, ...)`
receives when a dispatch is submitted to the queue. -/
structure DispatchSubmission where
  aql : hsaKernelDispatchPacket
  kernArg : KernArg
  kernArgSize : Nat
  deriving DecidableEq, Repr

/-- Result of one launch call: the returned status and the dispatch submitted
to the queue, if any. -/
structure LaunchOutcome where
  status : hipError
  submitted : Option DispatchSubmission
  deriving DecidableEq, Repr

/-- Ambient state consulted by `ihipModuleLaunchKernel`: whether
`ihipGetTlsDefaultCtx()` is non-null, the global `HCC_OPT_FLUSH` flag, the
`*(size_t*)` dereference used to read the size through `config[3]`, and the
global `kernelArguments` layout map. -/
structure LaunchEnv where
  ctxOk : Bool
  hccOptFlush : Bool
  readSizeT : LaunchSlot → Nat
  kernelArguments : String → ihipKernArgInfo

/-- `ihipModuleLaunchKernel` (hip_module.cpp lines 467-578).  Events and the
stream are omitted: they do not affect the status, the argument buffer or the
packet fields (the completion-future plumbing is an external collaborator). -/
def ihipModuleLaunchKernel (env : LaunchEnv) (f : ihipModuleSymbol_t)
    (globalWorkSizeX globalWorkSizeY globalWorkSizeZ : Nat)
    (localWorkSizeX localWorkSizeY localWorkSizeZ : Nat)
    (sharedMemBytes : Nat)
    (kernelParams : Option (List (List Nat)))
    (extra : Option (List LaunchSlot)) : LaunchOutcome :=
  if env.ctxOk = false then
    { status := hipErrorInvalidDevice, submitted := none }
  else
    match kernelParams with
    | some ps =>
        let pl := env.kernelArguments f._name
        let argBuf := packLoop (List.replicate pl.totalSize 0) 0 (zip3 pl.Size pl.Align ps)
        { status := hipSuccess,
          submitted := some
            { aql := buildAql f globalWorkSizeX globalWorkSizeY globalWorkSizeZ
                localWorkSizeX localWorkSizeY localWorkSizeZ sharedMemBytes env.hccOptFlush,
              kernArg := KernArg.packed argBuf,
              kernArgSize := pl.totalSize } }
    | none =>
      match extra with
      | some ex =>
          let c0 := ex.getD 0 (LaunchSlot.ptr 0)
          let c1 := ex.getD 1 (LaunchSlot.ptr 0)
          let c2 := ex.getD 2 (LaunchSlot.ptr 0)
          let c3 := ex.getD 3 (LaunchSlot.ptr 0)
          let c4 := ex.getD 4 (LaunchSlot.ptr 0)
          if c0 = LaunchSlot.bufferPointerMarker ∧ c2 = LaunchSlot.bufferSizeMarker ∧
              c4 = LaunchSlot.endMarker then
            { status := hipSuccess,
              submitted := some
                { aql := buildAql f globalWorkSizeX globalWorkSizeY globalWorkSizeZ
                    localWorkSizeX localWorkSizeY localWorkSizeZ sharedMemBytes env.hccOptFlush,
                  kernArg := KernArg.given c1,
                  kernArgSize := env.readSizeT c3 } }
          else
            { status := hipErrorNotInitialized, submitted := none }
      | none => { status := hipErrorInvalidValue, submitted := none }

/-- `hipModuleLaunchKernel` (hip_module.cpp lines 580-595): the public entry
point multiplies block and grid dimensions (in 32-bit arithmetic) into global
work sizes and forwards to `ihipModuleLaunchKernel`. -/
def hipModuleLaunchKernel (env : LaunchEnv) (f : ihipModuleSymbol_t)
    (gridDimX gridDimY gridDimZ blockDimX blockDimY blockDimZ : Nat)
    (sharedMemBytes : Nat)
    (kernelParams : Option (List (List Nat)))
    (extra : Option (List LaunchSlot)) : LaunchOutcome :=
  ihipModuleLaunchKernel env f
    ((blockDimX * gridDimX) % 2 ^ 32) ((blockDimY * gridDimY) % 2 ^ 32)
    ((gridDimZ * blockDimZ) % 2 ^ 32)
    blockDimX blockDimY blockDimZ sharedMemBytes kernelParams extra

/-! ### Module registry: `ihipModuleGetSymbol`

The module's function cache (`hmod->funcTrack`) is a list of resolved
symbols.  To express pointer identity of `hipFunction_t` handles (distinct
`new ihipModuleSymbol_t` allocations are distinct even when their fields are
equal), every allocation carries a fresh numeric id drawn from `nextId`.
`deviceQueries` counts the calls to `hsa_executable_get_symbol`, the entry
point of every device interaction of this function; a resolution that leaves
it unchanged performed no HSA query at all. -/

/-- Results of the HSA executable's symbol queries for a loaded module:
whether `hsa_executable_get_symbol` succeeds for a name, and the three
`hsa_executable_symbol_get_info` results (`none` models an HSA error
status). -/
structure ExecOracle where
  hasSymbol : String → Bool
  objectInfo : String → Option Nat
  groupInfo : String → Option Nat
  privateInfo : String → Option Nat

/-- The mutable state touched by `ihipModuleGetSymbol`: the module's
`funcTrack` cache plus allocation-id and device-query bookkeeping. -/
structure ModuleCacheState where
  funcTrack : List (Nat × ihipModuleSymbol_t)
  nextId : Nat
  deviceQueries : Nat
  deriving DecidableEq, Repr

/-- The cache scan of hip_module.cpp lines 419-424: return the first tracked
function whose `_name` matches. -/
def findCached : List (Nat × ihipModuleSymbol_t) → String → Option (Nat × ihipModuleSymbol_t)
  | [], _ => none
  | f :: fs, n => if f.2._name = n then some f else findCached fs n

/-- `ihipModuleGetSymbol` (hip_module.cpp lines 405-457).  Returns the logged
status, the value written through `*func` (if any), and the updated state. -/
def ihipModuleGetSymbol (exec : ExecOracle) (ctxOk : Bool) (st : ModuleCacheState)
    (name : Option String) :
    hipError × Option (Nat × ihipModuleSymbol_t) × ModuleCacheState :=
  match name with
  | none => (hipErrorInvalidValue, none, st)
  | some n =>
    if ctxOk = false then (hipErrorInvalidContext, none, st)
    else
      match findCached st.funcTrack n with
      | some f => (hipSuccess, some f, st)
      | none =>
        let st1 : ModuleCacheState :=
          { funcTrack := st.funcTrack, nextId := st.nextId,
            deviceQueries := st.deviceQueries + 1 }
        if exec.hasSymbol n = false then (hipErrorNotFound, none, st1)
        else
          match exec.objectInfo n with
          | none => (hipErrorNotFound, none, st1)
          | some obj =>
            match exec.groupInfo n with
            | none => (hipErrorNotFound, none, st1)
            | some grp =>
              match exec.privateInfo n with
              | none => (hipErrorNotFound, none, st1)
              | some prv =>
                let sym : ihipModuleSymbol_t :=
                  { _object := obj, _groupSegmentSize := grp,
                    _privateSegmentSize := prv, _name := n }
                (hipSuccess, some (st1.nextId, sym),
                 { funcTrack := st1.funcTrack ++ [(st1.nextId, sym)],
                   nextId := st1.nextId + 1,
                   deviceQueries := st1.deviceQueries })

/-- A sequence of lookups on the same module (each step is one
`ihipModuleGetSymbol` call whose returned status and handle are discarded). -/
def lookupMany (exec : ExecOracle) (ctxOk : Bool) :
    ModuleCacheState → List (Option String) → ModuleCacheState
  | st, [] => st
  | st, n :: ns => lookupMany exec ctxOk (ihipModuleGetSymbol exec ctxOk st n).2.2 ns

/-! ### ELF model: symbol tables, section headers, `ElfSize` -/

/-- One symbol-table entry as read through ELFIO's
`symbol_section_accessor::get_symbol` (name, value, size, bind, type, section
index, other). -/
structure ElfSymEntry where
  name : String
  value : Nat
  size : Nat
  bind : Nat
  stype : Nat
  sectIdx : Nat
  other : Nat
  deriving DecidableEq, Repr

/-- ELF section index of undefined symbols. -/
def SHN_UNDEF : Nat := 0

/-- ELF section type of a section with no materialized file storage. -/
def SHT_NOBITS : Nat := 8

/-- One ELF section header, restricted to the fields `ElfSize` reads. -/
structure SectionHdr where
  sh_offset : Nat
  sh_size : Nat
  sh_type : Nat
  deriving DecidableEq, Repr

/-- The parts of an in-memory ELF image that `ElfSize` reads: `e_shoff`,
`e_shentsize` and the section-header array (`e_shnum` is its length). -/
structure ElfImage where
  e_shoff : Nat
  e_shentsize : Nat
  sections : List SectionHdr
  deriving DecidableEq, Repr

/-- The loop of `ElfSize` (hip_module.cpp lines 154-163), carrying the running
`max_offset` and `total_size`.  Arithmetic is modelled on `Nat`; the source
uses `uint64_t` and no input anywhere near `2 ^ 64` is at issue. -/
def elfSizeLoop : Nat → Nat → List SectionHdr → Nat
  | _, total, [] => total
  | maxOff, total, s :: rest =>
    if maxOff < s.sh_offset then
      elfSizeLoop s.sh_offset
        (if s.sh_type ≠ SHT_NOBITS then s.sh_offset + s.sh_size else s.sh_offset) rest
    else
      elfSizeLoop maxOff total rest

/-- `ElfSize` (hip_module.cpp lines 145-165): computes the total footprint of
an in-memory image, starting from the end of the section-header table. -/
def ElfSize (img : ElfImage) : Nat :=
  elfSizeLoop img.e_shoff (img.e_shoff + img.e_shentsize * img.sections.length)
    img.sections

/-- The size a section contributes when it ends the image: zero for a
`SHT_NOBITS` (placeholder) section. -/
def effSize (s : SectionHdr) : Nat :=
  if s.sh_type ≠ SHT_NOBITS then s.sh_size else 0

/-- The footprint as the specification words it: the maximum over all
sections of (section offset + section size), a placeholder section
contributing zero size.  This definition follows the spec, to be compared
with `ElfSize`, which follows the source. -/
def specElfFootprint (img : ElfImage) : Nat :=
  (img.sections.map (fun s => s.sh_offset + effSize s)).foldr max 0

/-- The largest offset among a list of section headers. -/
def maxOffList (l : List SectionHdr) : Nat :=
  (l.map (fun s => s.sh_offset)).foldr max 0

/-- The largest section offset of an image. -/
def maxSecOff (img : ElfImage) : Nat := maxOffList img.sections

/-! ### Symbol/global binder -/

/-- `copy_names_of_undefined_symbols` (hip_module.cpp lines 181-210): the
names of the non-empty undefined symbols of a symbol section. -/
def copy_names_of_undefined_symbols (tbl : List ElfSymEntry) : List String :=
  tbl.filterMap (fun e =>
    if e.sectIdx = SHN_UNDEF ∧ ¬ e.name = "" then some e.name else none)

/-- `find_symbol_address` (hip_module.cpp lines 212-240): the (value, size) of
the first entry matching the name, defaulting to (0, 0). -/
def find_symbol_address (tbl : List ElfSymEntry) (symbolName : String) : Nat × Nat :=
  match tbl with
  | [] => (0, 0)
  | e :: es =>
      if e.name = symbolName then (e.value, e.size)
      else find_symbol_address es symbolName

/-- The per-symbol loop of
`associate_code_object_symbols_with_host_allocation` (hip_module.cpp lines
259-278): look each undefined name up in the host table, `assert(tmp.first)`
(modelled as returning `none` when the assertion fires, i.e. when the looked-up
address is zero), then pin the range and register the binding.  `some bindings`
is the list of (name, host address, pinned length) registered, in order. -/
def associateLoop (hostTab : List ElfSymEntry) :
    List String → Option (List (String × Nat × Nat))
  | [] => some []
  | x :: xs =>
    let tmp := find_symbol_address hostTab x
    if tmp.1 = 0 then none
    else
      match associateLoop hostTab xs with
      | none => none
      | some r => some ((x, tmp.1, tmp.2) :: r)

/-- `associate_code_object_symbols_with_host_allocation` (hip_module.cpp lines
242-279): a missing dynsym or process symtab section is a no-op. -/
def associate_code_object_symbols_with_host_allocation
    (code_object_dynsym : Option (List ElfSymEntry))
    (process_symtab : Option (List ElfSymEntry)) :
    Option (List (String × Nat × Nat)) :=
  match code_object_dynsym, process_symtab with
  | some d, some h => associateLoop h (copy_names_of_undefined_symbols d)
  | _, _ => some []

/-! ### `PrintSymbolSizes` and `hipModuleGetGlobal` -/

/-- A section of the module's raw image as scanned by `PrintSymbolSizes`:
only `SHT_SYMTAB` sections' symbol entries are consulted. -/
structure ImageSection where
  isSymtab : Bool
  syms : List ElfSymEntry
  deriving DecidableEq, Repr

/-- First matching entry's `st_size` in one symbol table. -/
def findSizeIn : List ElfSymEntry → String → Option Nat
  | [], _ => none
  | e :: es, n => if e.name = n then some e.size else findSizeIn es n

/-- `PrintSymbolSizes` (hip_module.cpp lines 119-143): scan the image's
symbol-table sections and return the size of the first symbol matching
`name`, or 0. -/
def PrintSymbolSizes (secs : List ImageSection) (name : String) : Nat :=
  match secs with
  | [] => 0
  | s :: rest =>
      if s.isSymtab then
        match findSizeIn s.syms name with
        | some sz => sz
        | none => PrintSymbolSizes rest name
      else
        PrintSymbolSizes rest name

/-- `sizeof(amd_kernel_code_t)` from the AMD HSA kernel-code header (external
collaborator): 256 bytes. -/
def sizeofAmdKernelCode : Nat := 256

/-- The module handle as seen by `hipModuleGetGlobal`: the raw image pointed
to by `hmod->ptr` (its symbol-table sections) and the function cache. -/
structure ModuleForGlobal where
  imageSections : List ImageSection
  cache : ModuleCacheState

/-- Ambient state of `hipModuleGetGlobal`: the executable's symbol oracle,
the TLS context, and the indeterminate value read from the local
`hipFunction_t func` variable when `ihipModuleGetSymbol` failed and left it
unwritten (an uninhabited stack slot in the C source). -/
structure GetGlobalEnv where
  exec : ExecOracle
  ctxOk : Bool
  uninitObject : Nat

/-- `hipModuleGetGlobal` (hip_module.cpp lines 614-632).  Note the source
discards the status returned by `ihipModuleGetSymbol` and always returns
`ihipLogStatus(ret)` with `ret == hipSuccess` on this path; when the inner
call failed, `func->_object` reads the uninitialized local. -/
def hipModuleGetGlobal (env : GetGlobalEnv) (dptrNull bytesNull : Bool)
    (hmod : Option ModuleForGlobal) (name : Option String) :
    hipError × Option (Nat × Nat) :=
  if dptrNull ∨ bytesNull then (hipErrorInvalidValue, none)
  else
    match name, hmod with
    | some n, some m =>
        let r := ihipModuleGetSymbol env.exec env.ctxOk m.cache (some n)
        let objVal : Nat :=
          match r.2.1 with
          | some f => f.2._object
          | none => env.uninitObject
        let bytesVal : Nat := PrintSymbolSizes m.imageSections n + sizeofAmdKernelCode
        (hipSuccess, some (objVal, bytesVal))
    | _, _ => (hipErrorNotInitialized, none)

/-! ### Module loading -/

/-- The initialization progress of an `ihipModule_t` as the load paths fill it
in: which steps have completed on the handle stored through the caller's
out-pointer.  `new ihipModule_t` starts with every flag false. -/
structure ihipModule_t where
  execCreated : Bool
  ptrSet : Bool
  sizeVal : Option Nat
  objectSet : Bool
  codeLoaded : Bool
  frozen : Bool
  deriving DecidableEq, Repr

/-- `new ihipModule_t`: nothing initialized yet. -/
def blankModule : ihipModule_t :=
  { execCreated := false, ptrSet := false, sizeVal := none,
    objectSet := false, codeLoaded := false, frozen := false }

/-- A module on which every load step has completed. -/
def fullyInitialized (m : ihipModule_t) : Prop :=
  m.execCreated = true ∧ m.codeLoaded = true ∧ m.frozen = true

/-- Ambient results of the collaborator calls made by `hipModuleLoad`:
whether the TLS context is non-null and whether `reader.load(fname)`
succeeds. -/
structure FileLoadEnv where
  ctxOk : Bool
  readerLoadOk : Bool
  deriving DecidableEq, Repr

/-- `hipModuleLoad` (hip_module.cpp lines 313-372).  Returns the logged status
and the value stored through the caller's `hipModule_t*` out-pointer.  The
source stores `*module = new ihipModule_t` before any validation and never
resets it on a failure path.  (The dead `module == NULL` check on line 321
sits after that store and is unreachable without undefined behavior, so a
null out-pointer is not modelled; the binder's assertion abort is covered
separately under the binder model.) -/
def hipModuleLoad (env : FileLoadEnv) : hipError × Option ihipModule_t :=
  if env.ctxOk = false then
    (hipErrorInvalidContext, some blankModule)
  else
    let m1 : ihipModule_t := { blankModule with execCreated := true }
    if env.readerLoadOk = false then
      (hipErrorFileNotFound, some m1)
    else
      (hipSuccess, some { m1 with codeLoaded := true, frozen := true })

/-- Ambient results of the collaborator calls made by `hipModuleLoadData`,
plus the nullness of its two arguments and the image contents. -/
structure DataLoadEnv where
  moduleNull : Bool
  imageNull : Bool
  image : ElfImage
  allocOk : Bool
  allocPtrNull : Bool
  deserializeOk : Bool
  execCreateOk : Bool
  loadCodeOk : Bool
  freezeOk : Bool
  deriving DecidableEq, Repr

/-- `hipModuleLoadData` (hip_module.cpp lines 634-682).  As in the source,
`*module = new ihipModule_t` happens right after the null checks, and every
subsequent failure path returns leaving that handle stored through the
out-pointer. -/
def hipModuleLoadData (env : DataLoadEnv) : hipError × Option ihipModule_t :=
  if env.imageNull ∨ env.moduleNull then
    (hipErrorNotInitialized, none)
  else
    if env.allocOk = false then
      (hipErrorOutOfMemory, some blankModule)
    else if env.allocPtrNull then
      (hipErrorOutOfMemory, some blankModule)
    else
      let m1 : ihipModule_t :=
        { blankModule with ptrSet := true, sizeVal := some (ElfSize env.image) }
      if env.deserializeOk = false then
        (hipErrorSharedObjectInitFailed, some m1)
      else
        let m2 : ihipModule_t := { m1 with objectSet := true }
        if env.execCreateOk = false then
          (hipErrorNotInitialized, some m2)
        else
          let m3 : ihipModule_t := { m2 with execCreated := true }
          if env.loadCodeOk = false then
            (hipErrorNotInitialized, some m3)
          else
            let m4 : ihipModule_t := { m3 with codeLoaded := true }
            if env.freezeOk = false then
              (hipErrorNotInitialized, some m4)
            else
              (hipSuccess, some { m4 with frozen := true })

/-- `hipModuleLoadDataEx` (hip_module.cpp lines 684-687): forwards to
`hipModuleLoadData`, taking `numOptions`, `options` and `optionValues`
arguments (modelled opaquely) that appear nowhere in the body. -/
def hipModuleLoadDataEx (env : DataLoadEnv) (numOptions : Nat)
    (options : List Nat) (optionValues : List Nat) : hipError × Option ihipModule_t :=
  hipModuleLoadData env

/-! ### Concrete fixtures used to evaluate the definitions -/

/-- The spec's concrete scenario (§8): two 8-byte pointers and one 4-byte int,
strides 8/8/8, total size 24. -/
def pl0 : ihipKernArgInfo :=
  { Size := [8, 8, 4], Align := [8, 8, 8],
    ArgType := [], ArgName := [], totalSize := 24 }

def launchEnv0 : LaunchEnv :=
  { ctxOk := true, hccOptFlush := false,
    readSizeT := fun s => match s with | LaunchSlot.ptr a => a | _ => 0,
    kernelArguments := fun _ => pl0 }

def f0 : ihipModuleSymbol_t :=
  { _object := 4096, _groupSegmentSize := 64, _privateSegmentSize := 128,
    _name := "vecAdd" }

def ps0 : List (List Nat) :=
  [[1, 2, 3, 4, 5, 6, 7, 8], [9, 10, 11, 12, 13, 14, 15, 16], [128, 0, 0, 0]]

/-- A well-formed `extra` array: the marker sentinels in slots 0, 2, 4. -/
def exGood : List LaunchSlot :=
  [LaunchSlot.bufferPointerMarker, LaunchSlot.ptr 700,
   LaunchSlot.bufferSizeMarker, LaunchSlot.ptr 24, LaunchSlot.endMarker]

/-- A malformed `extra` array: slot 0 carries the wrong sentinel. -/
def exBad : List LaunchSlot :=
  [LaunchSlot.endMarker, LaunchSlot.ptr 700,
   LaunchSlot.bufferSizeMarker, LaunchSlot.ptr 24, LaunchSlot.endMarker]

/-- An executable exposing exactly one kernel symbol, `vecAdd`. -/
def exec0 : ExecOracle :=
  { hasSymbol := fun n => n == "vecAdd",
    objectInfo := fun n => if n == "vecAdd" then some 4096 else none,
    groupInfo := fun n => if n == "vecAdd" then some 64 else none,
    privateInfo := fun n => if n == "vecAdd" then some 128 else none }

/-- An executable exposing no symbols at all. -/
def execEmpty : ExecOracle :=
  { hasSymbol := fun _ => false, objectInfo := fun _ => none,
    groupInfo := fun _ => none, privateInfo := fun _ => none }

/-- A fresh module cache. -/
def st0 : ModuleCacheState := { funcTrack := [], nextId := 0, deviceQueries := 0 }

/-- The symbol `exec0` resolves for `vecAdd`. -/
def sym0 : ihipModuleSymbol_t :=
  { _object := 4096, _groupSegmentSize := 64, _privateSegmentSize := 128,
    _name := "vecAdd" }

/-- The cache state after resolving `vecAdd` once from `st0` against `exec0`. -/
def stAfter : ModuleCacheState :=
  { funcTrack := [(0, sym0)], nextId := 1, deviceQueries := 1 }

/-- A host symbol table in which `g` is present but with address 0 (as for
an imported, still-unresolved entry of the host image). -/
def hostTab0 : List ElfSymEntry :=
  [{ name := "g", value := 0, size := 4, bind := 1, stype := 1, sectIdx := 0, other := 0 }]

/-- A host symbol table in which `g` is present with a nonzero address. -/
def hostTab1 : List ElfSymEntry :=
  [{ name := "g", value := 4096, size := 8, bind := 1, stype := 1, sectIdx := 1, other := 0 }]

/-- A code-object dynamic symbol table with one undefined symbol `g`. -/
def dynsym0 : List ElfSymEntry :=
  [{ name := "g", value := 0, size := 0, bind := 1, stype := 1,
     sectIdx := SHN_UNDEF, other := 0 }]

/-- An image on which `ElfSize` and the spec's maximum disagree: the section
at the largest offset (102) is not the one reaching farthest (100 + 5). -/
def img0 : ElfImage :=
  { e_shoff := 0, e_shentsize := 64,
    sections := [{ sh_offset := 100, sh_size := 5, sh_type := 1 },
                 { sh_offset := 102, sh_size := 1, sh_type := 1 }] }

/-- An image whose sections all sit below the section-header table. -/
def img1 : ElfImage :=
  { e_shoff := 200, e_shentsize := 64,
    sections := [{ sh_offset := 100, sh_size := 5, sh_type := 1 }] }

/-- A `hipModuleLoad` run whose `reader.load(fname)` fails. -/
def fileEnvBad : FileLoadEnv := { ctxOk := true, readerLoadOk := false }

/-- A `hipModuleLoadData` run whose `hsa_code_object_deserialize` fails. -/
def dataEnvBad : DataLoadEnv :=
  { moduleNull := false, imageNull := false, image := img0,
    allocOk := true, allocPtrNull := false, deserializeOk := false,
    execCreateOk := true, loadCodeOk := true, freezeOk := true }

/-- A fully successful `hipModuleLoadData` run. -/
def dataEnvOk : DataLoadEnv :=
  { moduleNull := false, imageNull := false, image := img0,
    allocOk := true, allocPtrNull := false, deserializeOk := true,
    execCreateOk := true, loadCodeOk := true, freezeOk := true }

/-- A module handle whose image and executable contain no symbols. -/
def modEmpty : ModuleForGlobal := { imageSections := [], cache := st0 }

def getGlobalEnv0 : GetGlobalEnv :=
  { exec := execEmpty, ctxOk := true, uninitObject := 57005 }

/-! ### Lemmas about the byte-buffer model -/

theorem writeBytes_nil (buf : List Nat) (off : Nat) : writeBytes buf off [] = buf := by
  cases buf <;> cases off <;> rfl

theorem writeBytes_length (buf : List Nat) (off : Nat) (src : List Nat) :
    (writeBytes buf off src).length = buf.length := by
  induction buf generalizing off src with
  | nil => cases off <;> cases src <;> rfl
  | cons b bs ih =>
      cases src with
      | nil => rw [writeBytes_nil]
      | cons s ss =>
          cases off with
          | zero => simpa [writeBytes] using ih 0 ss
          | succ o => simpa [writeBytes] using ih o (s :: ss)

theorem writeBytes_take_le (buf : List Nat) (off : Nat) (src : List Nat)
    (k : Nat) (hk : k ≤ off) : (writeBytes buf off src).take k = buf.take k := by
  induction buf generalizing off src k with
  | nil => cases off <;> cases src <;> rfl
  | cons b bs ih =>
      cases src with
      | nil => rw [writeBytes_nil]
      | cons s ss =>
          cases off with
          | zero =>
              have : k = 0 := Nat.le_zero.mp hk
              simp [this]
          | succ o =>
              cases k with
              | zero => simp
              | succ j =>
                  simp only [writeBytes, List.take_succ_cons]
                  rw [ih o (s :: ss) j (Nat.le_of_succ_le_succ hk)]

theorem readBytes_congr_take (l₁ l₂ : List Nat) (off n : Nat)
    (h : l₁.take (off + n) = l₂.take (off + n)) :
    readBytes l₁ off n = readBytes l₂ off n := by
  have h₁ : (l₁.take (off + n)).drop off = (l₂.take (off + n)).drop off := by rw [h]
  rw [List.drop_take, List.drop_take] at h₁
  simpa [readBytes, Nat.add_sub_cancel_left] using h₁

theorem readBytes_writeBytes_below (buf : List Nat) (woff : Nat) (src : List Nat)
    (off n : Nat) (h : off + n ≤ woff) :
    readBytes (writeBytes buf woff src) off n = readBytes buf off n :=
  readBytes_congr_take _ _ _ _ (writeBytes_take_le buf woff src (off + n) h)

theorem readBytes_writeBytes_self (buf : List Nat) (off : Nat) (src : List Nat)
    (h : off + src.length ≤ buf.length) :
    readBytes (writeBytes buf off src) off src.length = src := by
  induction buf generalizing off src with
  | nil =>
      have hsrc : src = [] := by
        cases src with
        | nil => rfl
        | cons s ss => simp at h
      simp [hsrc, readBytes]
  | cons b bs ih =>
      cases src with
      | nil => simp [readBytes]
      | cons s ss =>
          cases off with
          | zero =>
              simp only [writeBytes, readBytes, List.drop_zero, List.length_cons,
                List.take_succ_cons]
              have := ih 0 ss (by simp at h ⊢; omega)
              simpa [readBytes] using this
          | succ o =>
              simp only [writeBytes, readBytes, List.drop_succ_cons]
              have := ih o (s :: ss) (by simp at h ⊢; omega)
              simpa [readBytes] using this

theorem packLoop_length (ts : List (Nat × Nat × List Nat)) (buf : List Nat) (idx : Nat) :
    (packLoop buf idx ts).length = buf.length := by
  induction ts generalizing buf idx with
  | nil => rfl
  | cons t rest ih =>
      obtain ⟨sz, al, p⟩ := t
      simp [packLoop, ih, writeBytes_length]

theorem readBytes_packLoop_below (ts : List (Nat × Nat × List Nat))
    (buf : List Nat) (idx off n : Nat) (h : off + n ≤ idx) :
    readBytes (packLoop buf idx ts) off n = readBytes buf off n := by
  induction ts generalizing buf idx with
  | nil => rfl
  | cons t rest ih =>
      obtain ⟨sz, al, p⟩ := t
      simp only [packLoop]
      rw [ih (writeBytes buf idx (p.take sz)) (idx + al) (by omega)]
      exact readBytes_writeBytes_below buf idx _ off n h

/-- Round-trip of the packing loop: when each declared size is bounded by its
alignment stride, each caller parameter has exactly its declared size, and the
writes fit in the buffer, reading `Size[i]` bytes back at the cumulative
stride offset recovers parameter `i` exactly. -/
theorem packLoop_readBack (szs als : List Nat) (pss : List (List Nat))
    (buf : List Nat) (idx : Nat)
    (hlen₁ : als.length = szs.length) (hlen₂ : pss.length = szs.length)
    (hsa : ∀ i, szs.getD i 0 ≤ als.getD i 0)
    (hp : ∀ i, i < pss.length → (pss.getD i []).length = szs.getD i 0)
    (hfit : idx + als.sum ≤ buf.length) :
    ∀ i, i < pss.length →
      readBytes (packLoop buf idx (zip3 szs als pss)) (idx + (als.take i).sum)
          (szs.getD i 0) = pss.getD i [] := by
  induction szs generalizing als pss buf idx with
  | nil =>
      intro i hi
      rw [hlen₂] at hi
      exact absurd hi (Nat.not_lt_zero i)
  | cons sz szs ih =>
      cases als with
      | nil => simp at hlen₁
      | cons al als =>
          cases pss with
          | nil => simp at hlen₂
          | cons p ps =>
              intro i hi
              have hsa0 : sz ≤ al := by simpa using hsa 0
              have hp0 : p.length = sz := by simpa using hp 0 (by simp)
              have hfit' : idx + al + als.sum ≤ buf.length := by
                simp at hfit; omega
              cases i with
              | zero =>
                  simp only [zip3, packLoop, List.take_zero, List.sum_nil,
                    Nat.add_zero, List.getD_cons_zero]
                  rw [readBytes_packLoop_below _ _ _ _ _ (by omega)]
                  have hts : p.take sz = p := by
                    rw [hp0.symm]; simp
                  rw [hts]
                  have := readBytes_writeBytes_self buf idx p (by omega)
                  rw [hp0] at this
                  exact this
              | succ j =>
                  simp only [zip3, packLoop, List.take_succ_cons, List.sum_cons,
                    List.getD_cons_succ]
                  have hgoal := ih als ps (writeBytes buf idx (p.take sz)) (idx + al)
                    (by simpa using hlen₁) (by simpa using hlen₂)
                    (fun k => by simpa using hsa (k + 1))
                    (fun k hk => by simpa using hp (k + 1) (by simpa using Nat.succ_lt_succ hk))
                    (by rw [writeBytes_length]; exact hfit')
                    j (by simpa using Nat.lt_of_succ_lt_succ hi)
                  simpa [Nat.add_assoc] using hgoal

/-! ### Lemmas about the function cache -/

theorem findCached_append_some (l l' : List (Nat × ihipModuleSymbol_t)) (n : String)
    (f : Nat × ihipModuleSymbol_t) (h : findCached l n = some f) :
    findCached (l ++ l') n = some f := by
  induction l with
  | nil => simp [findCached] at h
  | cons x xs ih =>
      simp only [findCached, List.cons_append] at h ⊢
      by_cases hx : x.2._name = n
      · rw [if_pos hx] at h ⊢; exact h
      · rw [if_neg hx] at h ⊢; exact ih h

theorem findCached_append_none (l l' : List (Nat × ihipModuleSymbol_t)) (n : String)
    (h : findCached l n = none) : findCached (l ++ l') n = findCached l' n := by
  induction l with
  | nil => simp
  | cons x xs ih =>
      simp only [findCached, List.cons_append] at h ⊢
      by_cases hx : x.2._name = n
      · rw [if_pos hx] at h; exact absurd h (by simp)
      · rw [if_neg hx] at h ⊢; exact ih h

/-- Every `ihipModuleGetSymbol` call leaves the existing cache entries in
place: the resulting `funcTrack` extends the old one. -/
theorem getSymbol_funcTrack_extends (exec : ExecOracle) (ctxOk : Bool)
    (st : ModuleCacheState) (m : Option String) :
    ∃ tail, ((ihipModuleGetSymbol exec ctxOk st m).2.2).funcTrack = st.funcTrack ++ tail := by
  cases m with
  | none => exact ⟨[], by simp [ihipModuleGetSymbol]⟩
  | some n =>
      by_cases hc : ctxOk = false
      · exact ⟨[], by simp [ihipModuleGetSymbol, hc]⟩
      · cases hf : findCached st.funcTrack n with
        | some f => exact ⟨[], by simp [ihipModuleGetSymbol, hc, hf]⟩
        | none =>
            simp only [ihipModuleGetSymbol, hc, hf, if_false]
            repeat' split
            all_goals first
              | exact ⟨_, rfl⟩
              | (refine ⟨[], ?_⟩; simp)

/-- After a successful resolution, the returned handle is the first cache
entry with its name. -/
theorem getSymbol_found (exec : ExecOracle) (st st1 : ModuleCacheState) (n : String)
    (f : Nat × ihipModuleSymbol_t)
    (h : ihipModuleGetSymbol exec true st (some n) = (hipSuccess, some f, st1)) :
    findCached st1.funcTrack n = some f := by
  simp only [ihipModuleGetSymbol] at h
  rw [if_neg (by simp)] at h
  cases hf : findCached st.funcTrack n with
  | some g =>
      rw [hf] at h
      injection h with h1 h23
      injection h23 with h2 h3
      injection h2 with h2
      subst h3; subst h2
      exact hf
  | none =>
      rw [hf] at h
      by_cases hs : exec.hasSymbol n = false
      · rw [if_pos hs] at h; simp at h
      · rw [if_neg hs] at h
        cases ho : exec.objectInfo n with
        | none => rw [ho] at h; simp at h
        | some obj =>
            rw [ho] at h
            cases hg : exec.groupInfo n with
            | none => rw [hg] at h; simp at h
            | some grp =>
                rw [hg] at h
                cases hp : exec.privateInfo n with
                | none => rw [hp] at h; simp at h
                | some prv =>
                    rw [hp] at h
                    injection h with h1 h23
                    injection h23 with h2 h3
                    subst h3
                    injection h2 with h2
                    subst h2
                    rw [findCached_append_none _ _ _ hf]
                    simp [findCached]

theorem getSymbol_cache_hit (exec : ExecOracle) (st : ModuleCacheState) (n : String)
    (f : Nat × ihipModuleSymbol_t) (h : findCached st.funcTrack n = some f) :
    ihipModuleGetSymbol exec true st (some n) = (hipSuccess, some f, st) := by
  simp [ihipModuleGetSymbol, h]

/-- Any sequence of lookups preserves an existing first cache match. -/
theorem lookupMany_preserves (exec : ExecOracle) (ctxOk : Bool)
    (st : ModuleCacheState) (ns : List (Option String)) (n : String)
    (f : Nat × ihipModuleSymbol_t) (h : findCached st.funcTrack n = some f) :
    findCached (lookupMany exec ctxOk st ns).funcTrack n = some f := by
  induction ns generalizing st with
  | nil => exact h
  | cons m ms ih =>
      show findCached (lookupMany exec ctxOk _ ms).funcTrack n = some f
      apply ih
      obtain ⟨tail, ht⟩ := getSymbol_funcTrack_extends exec ctxOk st m
      rw [ht]
      exact findCached_append_some _ _ _ _ h

/-! ### Claims C5 and C7: cache coherence of `ihipModuleGetSymbol` -/

/-- Claim C5: if resolving name `n` on a module succeeds, then after any
further sequence of lookups on that module, resolving `n` again returns the
identical `Function` instance (the same allocation id, not merely an equal
name) and leaves the state — in particular the `deviceQueries` counter, which
counts `hsa_executable_get_symbol` calls — completely unchanged: the second
resolution does not contact the device. -/
theorem claim_C5_repeated_resolution_identity (exec : ExecOracle)
    (st st1 : ModuleCacheState) (n : String) (f : Nat × ihipModuleSymbol_t)
    (ns : List (Option String)) (ctx2 : Bool)
    (h1 : ihipModuleGetSymbol exec true st (some n) = (hipSuccess, some f, st1)) :
    ihipModuleGetSymbol exec true (lookupMany exec ctx2 st1 ns) (some n) =
      (hipSuccess, some f, lookupMany exec ctx2 st1 ns) := by
  have hf : findCached st1.funcTrack n = some f := getSymbol_found exec st st1 n f h1
  exact getSymbol_cache_hit exec _ n f (lookupMany_preserves exec ctx2 st1 ns n f hf)

/-- Witness for C5: resolving `vecAdd` on a fresh module caches it as
allocation 0; after an intervening lookup of another name, resolving `vecAdd`
again returns allocation 0 with the state untouched. -/
theorem claim_C5_witness :
    ihipModuleGetSymbol exec0 true (lookupMany exec0 true stAfter [some "other"])
        (some "vecAdd") =
      (hipSuccess, some (0, sym0), lookupMany exec0 true stAfter [some "other"]) :=
  claim_C5_repeated_resolution_identity exec0 st0 stAfter "vecAdd" (0, sym0)
    [some "other"] true (by decide)

/-- Claim C7: resolving a name absent from both the cache and the image
returns `hipErrorNotFound` and leaves the function cache exactly as it was
(only the device-query counter advances), so a subsequent lookup of a
different, present name still succeeds. -/
theorem claim_C7_absent_name_leaves_cache (exec : ExecOracle)
    (st : ModuleCacheState) (n nOther : String) (o g p : Nat)
    (hmiss : findCached st.funcTrack n = none)
    (habs : exec.hasSymbol n = false)
    (hs : exec.hasSymbol nOther = true)
    (ho : exec.objectInfo nOther = some o)
    (hg : exec.groupInfo nOther = some g)
    (hp : exec.privateInfo nOther = some p) :
    ihipModuleGetSymbol exec true st (some n) =
      (hipErrorNotFound, none,
        { funcTrack := st.funcTrack, nextId := st.nextId,
          deviceQueries := st.deviceQueries + 1 }) ∧
    (ihipModuleGetSymbol exec true
        { funcTrack := st.funcTrack, nextId := st.nextId,
          deviceQueries := st.deviceQueries + 1 } (some nOther)).1 = hipSuccess := by
  constructor
  · simp [ihipModuleGetSymbol, hmiss, habs]
  · cases hc : findCached st.funcTrack nOther with
    | some f => simp [ihipModuleGetSymbol, hc]
    | none => simp [ihipModuleGetSymbol, hc, hs, ho, hg, hp]

/-- Witness for C7: on a fresh module backed by `exec0`, looking up `missing`
fails with `hipErrorNotFound` and leaves the (empty) cache list empty, and a
following lookup of `vecAdd` succeeds. -/
theorem claim_C7_witness :
    ihipModuleGetSymbol exec0 true st0 (some "missing") =
      (hipErrorNotFound, none, { funcTrack := [], nextId := 0, deviceQueries := 1 }) ∧
    (ihipModuleGetSymbol exec0 true
        { funcTrack := [], nextId := 0, deviceQueries := 1 } (some "vecAdd")).1 =
      hipSuccess := by
  have h := claim_C7_absent_name_leaves_cache exec0 st0 "missing" "vecAdd" 4096 64 128
    (by decide) (by decide) (by decide) (by decide) (by decide) (by decide)
  simpa [st0] using h

/-! ### Claim C1: positional argument packing -/

/-- Claim C1: for a kernel whose argument layout has per-parameter strides at
least the sizes (and, per the layout invariant of spec §3, strides that fit
within the declared total size), launching in positional mode submits a
dispatch whose argument buffer has exactly the declared total size, with each
parameter's `Size[i]` bytes copied at the cumulative stride offset
`Align[0]+...+Align[i-1]`; reading each parameter back at that offset
reproduces the caller's bytes exactly, and the size passed to dispatch is the
declared `totalSize`, not the final cursor position. -/
theorem claim_C1_positional_pack_roundtrip (env : LaunchEnv) (f : ihipModuleSymbol_t)
    (gX gY gZ lX lY lZ shared : Nat) (ps : List (List Nat))
    (extra : Option (List LaunchSlot)) (pl : ihipKernArgInfo)
    (hctx : env.ctxOk = true)
    (hpl : env.kernelArguments f._name = pl)
    (hlen₁ : pl.Align.length = pl.Size.length)
    (hlen₂ : ps.length = pl.Size.length)
    (hstride : ∀ i, pl.Size.getD i 0 ≤ pl.Align.getD i 0)
    (hparam : ∀ i, i < ps.length → (ps.getD i []).length = pl.Size.getD i 0)
    (hfit : pl.Align.sum ≤ pl.totalSize) :
    ihipModuleLaunchKernel env f gX gY gZ lX lY lZ shared (some ps) extra =
      { status := hipSuccess,
        submitted := some
          { aql := buildAql f gX gY gZ lX lY lZ shared env.hccOptFlush,
            kernArg := KernArg.packed
              (packLoop (List.replicate pl.totalSize 0) 0 (zip3 pl.Size pl.Align ps)),
            kernArgSize := pl.totalSize } } ∧
    (packLoop (List.replicate pl.totalSize 0) 0 (zip3 pl.Size pl.Align ps)).length =
      pl.totalSize ∧
    ∀ i, i < ps.length →
      readBytes (packLoop (List.replicate pl.totalSize 0) 0 (zip3 pl.Size pl.Align ps))
          ((pl.Align.take i).sum) (pl.Size.getD i 0) = ps.getD i [] := by
  refine ⟨?_, ?_, ?_⟩
  · simp [ihipModuleLaunchKernel, hctx, hpl]
  · rw [packLoop_length]; simp
  · intro i hi
    have h := packLoop_readBack pl.Size pl.Align ps (List.replicate pl.totalSize 0) 0
      hlen₁ hlen₂ hstride hparam (by simpa using hfit) i hi
    simpa using h

/-- Witness for C1 at the spec's concrete scenario (§8): strides 8/8/8, sizes
8/8/4, total 24; the int parameter's 4 bytes land at offset 16 and read back
exactly, and the dispatch size is 24. -/
theorem claim_C1_witness :
    ihipModuleLaunchKernel launchEnv0 f0 1 1 1 1 1 1 0 (some ps0) none =
      { status := hipSuccess,
        submitted := some
          { aql := buildAql f0 1 1 1 1 1 1 0 launchEnv0.hccOptFlush,
            kernArg := KernArg.packed
              (packLoop (List.replicate 24 0) 0 (zip3 [8, 8, 4] [8, 8, 8] ps0)),
            kernArgSize := 24 } } ∧
    (packLoop (List.replicate 24 0) 0 (zip3 [8, 8, 4] [8, 8, 8] ps0)).length = 24 ∧
    readBytes (packLoop (List.replicate 24 0) 0 (zip3 [8, 8, 4] [8, 8, 8] ps0)) 16 4 =
      [128, 0, 0, 0] := by
  obtain ⟨h1, h2, h3⟩ := claim_C1_positional_pack_roundtrip launchEnv0 f0
    1 1 1 1 1 1 0 ps0 none pl0 rfl rfl (by decide) (by decide)
    (by
      intro i
      rcases i with _ | _ | _ | j
      · decide
      · decide
      · decide
      · simp [pl0])
    (by decide) (by decide)
  refine ⟨by simpa [pl0] using h1, by simpa [pl0] using h2, ?_⟩
  have h := h3 2 (by decide)
  simpa [pl0, ps0] using h

/-! ### Claim C2: dispatch descriptor fields -/

/-- Whichever argument path was taken, a submitted dispatch carries the AQL
packet built by `buildAql`. -/
theorem submitted_aql_eq (env : LaunchEnv) (f : ihipModuleSymbol_t)
    (gX gY gZ lX lY lZ shared : Nat) (params : Option (List (List Nat)))
    (extra : Option (List LaunchSlot)) (d : DispatchSubmission)
    (hsub : (ihipModuleLaunchKernel env f gX gY gZ lX lY lZ shared params extra).submitted
      = some d) :
    d.aql = buildAql f gX gY gZ lX lY lZ shared env.hccOptFlush := by
  unfold ihipModuleLaunchKernel at hsub
  by_cases hctx : env.ctxOk = false
  · rw [if_pos hctx] at hsub; simp at hsub
  · rw [if_neg hctx] at hsub
    cases params with
    | some ps =>
        dsimp only at hsub
        injection hsub with h
        rw [← h]
    | none =>
        cases extra with
        | none => simp at hsub
        | some ex =>
            dsimp only at hsub
            split at hsub
            · injection hsub with h
              rw [← h]
            · simp at hsub

/-- The field contents of every packet `buildAql` produces, under the no-
truncation bounds satisfied by all well-formed inputs: group memory is the
function's group segment plus the requested shared bytes, private memory is
the function's private segment, the kernel object is the function's device
handle, `setup` marks 3 dimensions, the barrier bit of the header is set, and
both fence scopes are agent (1) when `HCC_OPT_FLUSH` is set and system (2)
otherwise. -/
theorem buildAql_fields (f : ihipModuleSymbol_t)
    (gX gY gZ lX lY lZ shared : Nat) (flag : Bool)
    (hg : f._groupSegmentSize + shared < 2 ^ 32)
    (hpriv : f._privateSegmentSize < 2 ^ 32)
    (hobj : f._object < 2 ^ 64) :
    (buildAql f gX gY gZ lX lY lZ shared flag).group_segment_size =
      f._groupSegmentSize + shared ∧
    (buildAql f gX gY gZ lX lY lZ shared flag).private_segment_size =
      f._privateSegmentSize ∧
    (buildAql f gX gY gZ lX lY lZ shared flag).kernel_object = f._object ∧
    (buildAql f gX gY gZ lX lY lZ shared flag).setup =
      3 <<< HSA_KERNEL_DISPATCH_PACKET_SETUP_DIMENSIONS ∧
    Nat.testBit (buildAql f gX gY gZ lX lY lZ shared flag).header
      HSA_PACKET_HEADER_BARRIER = true ∧
    ((buildAql f gX gY gZ lX lY lZ shared flag).header >>>
        HSA_PACKET_HEADER_ACQUIRE_FENCE_SCOPE) % 4 =
      (if flag then HSA_FENCE_SCOPE_AGENT else HSA_FENCE_SCOPE_SYSTEM) ∧
    ((buildAql f gX gY gZ lX lY lZ shared flag).header >>>
        HSA_PACKET_HEADER_RELEASE_FENCE_SCOPE) % 4 =
      (if flag then HSA_FENCE_SCOPE_AGENT else HSA_FENCE_SCOPE_SYSTEM) := by
  refine ⟨Nat.mod_eq_of_lt hg, Nat.mod_eq_of_lt hpriv, Nat.mod_eq_of_lt hobj,
    rfl, ?_, ?_, ?_⟩ <;>
  · simp only [buildAql]
    cases flag <;> decide

/-- Claim C2: every dispatch descriptor actually enqueued carries group-memory
size equal to the function's required group segment plus the caller's shared
bytes, private-memory size equal to the function's private segment, kernel
entry equal to the function's device kernel object, the 3-dimensional setup
marker, the barrier header bit, and acquire/release fence scopes agent-scoped
when `HCC_OPT_FLUSH` is set, system-scoped otherwise. -/
theorem claim_C2_dispatch_descriptor (env : LaunchEnv) (f : ihipModuleSymbol_t)
    (gX gY gZ lX lY lZ shared : Nat) (params : Option (List (List Nat)))
    (extra : Option (List LaunchSlot)) (d : DispatchSubmission)
    (hsub : (ihipModuleLaunchKernel env f gX gY gZ lX lY lZ shared params extra).submitted
      = some d)
    (hg : f._groupSegmentSize + shared < 2 ^ 32)
    (hpriv : f._privateSegmentSize < 2 ^ 32)
    (hobj : f._object < 2 ^ 64) :
    d.aql.group_segment_size = f._groupSegmentSize + shared ∧
    d.aql.private_segment_size = f._privateSegmentSize ∧
    d.aql.kernel_object = f._object ∧
    d.aql.setup = 3 <<< HSA_KERNEL_DISPATCH_PACKET_SETUP_DIMENSIONS ∧
    Nat.testBit d.aql.header HSA_PACKET_HEADER_BARRIER = true ∧
    (d.aql.header >>> HSA_PACKET_HEADER_ACQUIRE_FENCE_SCOPE) % 4 =
      (if env.hccOptFlush then HSA_FENCE_SCOPE_AGENT else HSA_FENCE_SCOPE_SYSTEM) ∧
    (d.aql.header >>> HSA_PACKET_HEADER_RELEASE_FENCE_SCOPE) % 4 =
      (if env.hccOptFlush then HSA_FENCE_SCOPE_AGENT else HSA_FENCE_SCOPE_SYSTEM) := by
  rw [submitted_aql_eq env f gX gY gZ lX lY lZ shared params extra d hsub]
  exact buildAql_fields f gX gY gZ lX lY lZ shared env.hccOptFlush hg hpriv hobj

/-- Witness for C2 at a concrete positional launch with 8 shared-memory bytes
and `HCC_OPT_FLUSH` clear: group memory 64 + 8, private 128, kernel object
4096, setup 3, barrier bit on, both fence scopes system-scoped (2). -/
theorem claim_C2_witness :
    (buildAql f0 1 1 1 1 1 1 8 launchEnv0.hccOptFlush).group_segment_size = 72 ∧
    (buildAql f0 1 1 1 1 1 1 8 launchEnv0.hccOptFlush).private_segment_size = 128 ∧
    (buildAql f0 1 1 1 1 1 1 8 launchEnv0.hccOptFlush).kernel_object = 4096 ∧
    (buildAql f0 1 1 1 1 1 1 8 launchEnv0.hccOptFlush).setup = 3 ∧
    Nat.testBit (buildAql f0 1 1 1 1 1 1 8 launchEnv0.hccOptFlush).header 8 = true ∧
    ((buildAql f0 1 1 1 1 1 1 8 launchEnv0.hccOptFlush).header >>> 9) % 4 = 2 ∧
    ((buildAql f0 1 1 1 1 1 1 8 launchEnv0.hccOptFlush).header >>> 11) % 4 = 2 := by
  have h := claim_C2_dispatch_descriptor launchEnv0 f0 1 1 1 1 1 1 8 (some ps0) none
    { aql := buildAql f0 1 1 1 1 1 1 8 launchEnv0.hccOptFlush,
      kernArg := KernArg.packed
        (packLoop (List.replicate pl0.totalSize 0) 0 (zip3 pl0.Size pl0.Align ps0)),
      kernArgSize := pl0.totalSize }
    rfl (by decide) (by decide) (by decide)
  simpa [f0, launchEnv0, HSA_PACKET_HEADER_BARRIER, HSA_FENCE_SCOPE_SYSTEM,
    HSA_PACKET_HEADER_ACQUIRE_FENCE_SCOPE, HSA_PACKET_HEADER_RELEASE_FENCE_SCOPE,
    HSA_KERNEL_DISPATCH_PACKET_SETUP_DIMENSIONS] using h

/-! ### Claim C6: the positional / pre-packed argument convention -/

/-- Claim C6: with a valid context, (a) supplying neither positional
parameters nor an `extra` array returns `hipErrorInvalidValue` and submits
nothing; (b) any `extra` array whose slots 0, 2, 4 deviate from the
buffer-pointer / buffer-size / end sentinel sequence is rejected with
`hipErrorNotInitialized` and submits nothing; (c) when the markers match, a
dispatch is submitted whose argument buffer is slot 1 and whose size is read
indirectly through the pointer in slot 3. -/
theorem claim_C6_argument_convention (env : LaunchEnv) (f : ihipModuleSymbol_t)
    (gX gY gZ lX lY lZ shared : Nat) (hctx : env.ctxOk = true) :
    (ihipModuleLaunchKernel env f gX gY gZ lX lY lZ shared none none =
       { status := hipErrorInvalidValue, submitted := none }) ∧
    (∀ ex : List LaunchSlot,
       ¬ (ex.getD 0 (LaunchSlot.ptr 0) = LaunchSlot.bufferPointerMarker ∧
          ex.getD 2 (LaunchSlot.ptr 0) = LaunchSlot.bufferSizeMarker ∧
          ex.getD 4 (LaunchSlot.ptr 0) = LaunchSlot.endMarker) →
       ihipModuleLaunchKernel env f gX gY gZ lX lY lZ shared none (some ex) =
         { status := hipErrorNotInitialized, submitted := none }) ∧
    (∀ ex : List LaunchSlot,
       (ex.getD 0 (LaunchSlot.ptr 0) = LaunchSlot.bufferPointerMarker ∧
        ex.getD 2 (LaunchSlot.ptr 0) = LaunchSlot.bufferSizeMarker ∧
        ex.getD 4 (LaunchSlot.ptr 0) = LaunchSlot.endMarker) →
       ihipModuleLaunchKernel env f gX gY gZ lX lY lZ shared none (some ex) =
         { status := hipSuccess,
           submitted := some
             { aql := buildAql f gX gY gZ lX lY lZ shared env.hccOptFlush,
               kernArg := KernArg.given (ex.getD 1 (LaunchSlot.ptr 0)),
               kernArgSize := env.readSizeT (ex.getD 3 (LaunchSlot.ptr 0)) } }) := by
  refine ⟨?_, ?_, ?_⟩
  · simp [ihipModuleLaunchKernel, hctx]
  · intro ex hbad
    simp only [ihipModuleLaunchKernel, hctx]
    rw [if_neg (by simp), if_neg hbad]
  · intro ex hgood
    simp only [ihipModuleLaunchKernel, hctx]
    rw [if_neg (by simp), if_pos hgood]

/-- Witness for C6: with both argument forms null the launch returns
`hipErrorInvalidValue` with no submission; with a marker sequence starting
with the wrong sentinel it returns `hipErrorNotInitialized` with no
submission; with the correct sentinels it submits slot 1's pointer as the
buffer and reads the size 24 through the pointer in slot 3. -/
theorem claim_C6_witness :
    (ihipModuleLaunchKernel launchEnv0 f0 1 1 1 1 1 1 0 none none =
       { status := hipErrorInvalidValue, submitted := none }) ∧
    (ihipModuleLaunchKernel launchEnv0 f0 1 1 1 1 1 1 0 none (some exBad) =
       { status := hipErrorNotInitialized, submitted := none }) ∧
    (ihipModuleLaunchKernel launchEnv0 f0 1 1 1 1 1 1 0 none (some exGood) =
       { status := hipSuccess,
         submitted := some
           { aql := buildAql f0 1 1 1 1 1 1 0 launchEnv0.hccOptFlush,
             kernArg := KernArg.given (LaunchSlot.ptr 700),
             kernArgSize := 24 } }) := by
  obtain ⟨h1, h2, h3⟩ :=
    claim_C6_argument_convention launchEnv0 f0 1 1 1 1 1 1 0 rfl
  refine ⟨h1, h2 exBad (by decide), ?_⟩
  have h := h3 exGood (by decide)
  simpa [exGood, launchEnv0] using h

/-! ### Claim C4: the `ElfSize` footprint -/

theorem mem_le_maxOffList (l : List SectionHdr) (t : SectionHdr) (ht : t ∈ l) :
    t.sh_offset ≤ maxOffList l := by
  induction l with
  | nil => cases ht
  | cons x xs ih =>
      rcases List.mem_cons.mp ht with h | h
      · subst h
        exact le_max_left _ _
      · exact le_trans (ih h) (le_max_right _ _)

theorem maxOffList_cons (s : SectionHdr) (rest : List SectionHdr) :
    maxOffList (s :: rest) = max s.sh_offset (maxOffList rest) := rfl

/-- If no remaining section lies strictly beyond the running maximum offset,
the loop returns the running total unchanged. -/
theorem elfSizeLoop_no_update (l : List SectionHdr) (maxOff total : Nat)
    (h : ∀ s ∈ l, s.sh_offset ≤ maxOff) : elfSizeLoop maxOff total l = total := by
  induction l generalizing maxOff total with
  | nil => rfl
  | cons s rest ih =>
      have hs : s.sh_offset ≤ maxOff := h s (List.mem_cons_self s rest)
      simp only [elfSizeLoop]
      rw [if_neg (by omega)]
      exact ih maxOff total (fun t ht => h t (List.mem_cons_of_mem s ht))

/-- If some remaining section lies strictly beyond the running maximum
offset, the loop returns offset + effective size of the first section
attaining the maximal offset of the remainder. -/
theorem elfSizeLoop_update (l : List SectionHdr) : ∀ maxOff total : Nat,
    maxOff < maxOffList l →
    ∃ s, l.find? (fun t => decide (maxOffList l ≤ t.sh_offset)) = some s ∧
      s.sh_offset = maxOffList l ∧
      elfSizeLoop maxOff total l = s.sh_offset + effSize s := by
  induction l with
  | nil =>
      intro maxOff total h
      simp [maxOffList] at h
  | cons s rest ih =>
      intro maxOff total h
      rcases le_or_lt (maxOffList rest) s.sh_offset with hle | hlt
      · have hMeq : maxOffList (s :: rest) = s.sh_offset := by
          rw [maxOffList_cons]; exact max_eq_left hle
        have hbranch : maxOff < s.sh_offset := by rw [hMeq] at h; exact h
        refine ⟨s, ?_, hMeq.symm, ?_⟩
        · exact List.find?_cons_of_pos _ (by simp [hMeq])
        · simp only [elfSizeLoop]
          rw [if_pos hbranch]
          rw [elfSizeLoop_no_update rest _ _
            (fun t ht => le_trans (mem_le_maxOffList rest t ht) hle)]
          unfold effSize
          split
          · rfl
          · omega
      · have hMeq : maxOffList (s :: rest) = maxOffList rest := by
          rw [maxOffList_cons]; exact max_eq_right (le_of_lt hlt)
        rw [hMeq] at h ⊢
        simp only [elfSizeLoop]
        have hps : (decide (maxOffList rest ≤ s.sh_offset)) = false := by
          simp only [decide_eq_false_iff_not]
          omega
        by_cases hbr : maxOff < s.sh_offset
        · rw [if_pos hbr]
          obtain ⟨s', hfind, hoff, hval⟩ := ih s.sh_offset
            (if s.sh_type ≠ SHT_NOBITS then s.sh_offset + s.sh_size else s.sh_offset) hlt
          refine ⟨s', ?_, hoff, hval⟩
          rw [List.find?_cons]
          simp only [hps]
          exact hfind
        · rw [if_neg hbr]
          obtain ⟨s', hfind, hoff, hval⟩ := ih maxOff total h
          refine ⟨s', ?_, hoff, hval⟩
          rw [List.find?_cons]
          simp only [hps]
          exact hfind

/-- Counterexample to claim C4 as stated: on `img0` (two sections, one at
offset 100 of size 5, one at offset 102 of size 1) the source's `ElfSize`
returns 103, while the maximum over all sections of (offset + size) — the
spec's formula — is 105. -/
theorem claim_C4_counterexample :
    ElfSize img0 = 103 ∧ specElfFootprint img0 = 105 ∧
    ¬ ElfSize img0 = specElfFootprint img0 := by
  decide

/-- Claim C4 (amended): the computed footprint equals
`e_shoff + e_shentsize * e_shnum` when no section lies strictly beyond the
section-header table offset; otherwise it equals offset + size (zero size for
a placeholder section) of the first section in header order attaining the
maximal section offset — which is not, in general, the maximum over all
sections of (offset + size). -/
theorem claim_C4_amended :
    (∀ img : ElfImage, (∀ s ∈ img.sections, s.sh_offset ≤ img.e_shoff) →
       ElfSize img = img.e_shoff + img.e_shentsize * img.sections.length) ∧
    (∀ img : ElfImage, img.e_shoff < maxSecOff img →
       ∃ s, img.sections.find? (fun t => decide (maxSecOff img ≤ t.sh_offset)) = some s ∧
         s.sh_offset = maxSecOff img ∧
         ElfSize img = s.sh_offset + effSize s) := by
  constructor
  · intro img h
    exact elfSizeLoop_no_update img.sections _ _ h
  · intro img h
    exact elfSizeLoop_update img.sections img.e_shoff _ h

/-- Witness for the amended C4: on `img1` every section sits below the
header table, so the footprint is 200 + 64·1 = 264; on `img0` the
maximal-offset section is the one at offset 102 with size 1, so the footprint
is 103. -/
theorem claim_C4_witness : ElfSize img1 = 264 ∧ ElfSize img0 = 103 := by
  constructor
  · have h := claim_C4_amended.1 img1 (by decide)
    simpa [img1] using h
  · obtain ⟨s, hfind, hoff, hval⟩ := claim_C4_amended.2 img0 (by decide)
    have hs : s = { sh_offset := 102, sh_size := 1, sh_type := 1 } := by
      have hconc : img0.sections.find?
          (fun t => decide (maxSecOff img0 ≤ t.sh_offset)) =
          some { sh_offset := 102, sh_size := 1, sh_type := 1 } := by decide
      rw [hconc] at hfind
      exact (Option.some.inj hfind).symm
    rw [hval, hs]
    decide

/-! ### Claim C8: the symbol binder's assertion -/

/-- Counterexample to claim C8 as stated: the undefined symbol `g` of
`dynsym0` is present (by name) in the host table `hostTab0`, yet its entry
has address 0, so `find_symbol_address` returns (0, size) and the binder's
`assert(tmp.first)` still fires (`none` models the assertion failure). -/
theorem claim_C8_counterexample :
    (∀ x ∈ copy_names_of_undefined_symbols dynsym0, ∃ e ∈ hostTab0, e.name = x) ∧
    associate_code_object_symbols_with_host_allocation (some dynsym0) (some hostTab0) =
      none := by
  decide

/-- Claim C8 (amended): a name not found in the host table looks up as
(0, 0); the binder fails fast on a zero looked-up address, before pinning
that symbol; and under the precondition that every undefined symbol is
present in the host table with a nonzero address, the assertion never fires
and every symbol is pinned, in order, at its looked-up address and size. -/
theorem claim_C8_binder_assertion :
    (∀ (tbl : List ElfSymEntry) (n : String),
       (∀ e ∈ tbl, ¬ e.name = n) → find_symbol_address tbl n = (0, 0)) ∧
    (∀ (hostTab : List ElfSymEntry) (x : String) (xs : List String),
       (find_symbol_address hostTab x).1 = 0 →
       associateLoop hostTab (x :: xs) = none) ∧
    (∀ (hostTab : List ElfSymEntry) (names : List String),
       (∀ x ∈ names, ¬ (find_symbol_address hostTab x).1 = 0) →
       associateLoop hostTab names =
         some (names.map (fun x =>
           (x, (find_symbol_address hostTab x).1, (find_symbol_address hostTab x).2)))) := by
  refine ⟨?_, ?_, ?_⟩
  · intro tbl n h
    induction tbl with
    | nil => rfl
    | cons e es ih =>
        simp only [find_symbol_address]
        rw [if_neg (h e (List.mem_cons_self e es))]
        exact ih (fun t ht => h t (List.mem_cons_of_mem e ht))
  · intro hostTab x xs hzero
    simp only [associateLoop]
    rw [if_pos hzero]
  · intro hostTab names h
    induction names with
    | nil => rfl
    | cons x xs ih =>
        simp only [associateLoop, List.map_cons]
        rw [if_neg (h x (List.mem_cons_self x xs))]
        rw [ih (fun t ht => h t (List.mem_cons_of_mem x ht))]

/-- Witness for the amended C8: an absent name looks up as (0, 0); binding
`g` against the zero-address table aborts on the assertion; binding `g`
against the table holding it at address 4096 with size 8 pins exactly
`(g, 4096, 8)`. -/
theorem claim_C8_witness :
    find_symbol_address hostTab1 "absent" = (0, 0) ∧
    associateLoop hostTab0 ["g"] = none ∧
    associateLoop hostTab1 ["g"] = some [("g", 4096, 8)] := by
  refine ⟨claim_C8_binder_assertion.1 hostTab1 "absent" (by decide),
    claim_C8_binder_assertion.2.1 hostTab0 "g" [] (by decide), ?_⟩
  have h := claim_C8_binder_assertion.2.2 hostTab1 ["g"] (by decide)
  simpa [hostTab1, find_symbol_address] using h

/-! ### Claim C3: visibility of half-initialized modules on load failure -/

/-- Counterexample to claim C3 as stated: when `reader.load(fname)` fails,
`hipModuleLoad` returns `hipErrorFileNotFound`, yet the caller's out-pointer
has already been filled with a freshly allocated module (whose executable was
created but never loaded or frozen) — a half-initialized module is visible to
the caller on an error return. -/
theorem claim_C3_counterexample :
    (hipModuleLoad fileEnvBad).1 = hipErrorFileNotFound ∧
    (hipModuleLoad fileEnvBad).2 = some { blankModule with execCreated := true } ∧
    ¬ fullyInitialized { blankModule with execCreated := true } := by
  refine ⟨rfl, rfl, ?_⟩
  simp [fullyInitialized, blankModule]

/-- Claim C3 (amended): on success the caller's out-pointer holds a fully
initialized module; on failure the call does report an error, but — except
for the initial null-argument rejection of the in-memory variant, the only
path that writes nothing — the out-pointer is left holding a freshly
allocated module that is not fully initialized, rather than being reset or
discarded. -/
theorem claim_C3_amended :
    (∀ env : FileLoadEnv, ¬ (hipModuleLoad env).1 = hipSuccess →
       ∃ m, (hipModuleLoad env).2 = some m ∧ ¬ fullyInitialized m) ∧
    (∀ env : FileLoadEnv, (hipModuleLoad env).1 = hipSuccess →
       ∃ m, (hipModuleLoad env).2 = some m ∧ fullyInitialized m) ∧
    (∀ env : DataLoadEnv, ¬ (hipModuleLoadData env).1 = hipSuccess →
       (hipModuleLoadData env).2 = none ∨
         ∃ m, (hipModuleLoadData env).2 = some m ∧ ¬ fullyInitialized m) ∧
    (∀ env : DataLoadEnv, (hipModuleLoadData env).1 = hipSuccess →
       ∃ m, (hipModuleLoadData env).2 = some m ∧ fullyInitialized m) ∧
    (∀ env : DataLoadEnv, (hipModuleLoadData env).2 = none →
       env.imageNull ∨ env.moduleNull) := by
  refine ⟨?_, ?_, ?_, ?_, ?_⟩
  · rintro ⟨c, r⟩ h
    revert h
    cases c <;> cases r <;>
      · intro h
        simp_all [hipModuleLoad, fullyInitialized, blankModule]
  · rintro ⟨c, r⟩ h
    revert h
    cases c <;> cases r <;>
      · intro h
        simp_all [hipModuleLoad, fullyInitialized, blankModule]
  · intro env h
    revert h
    simp only [hipModuleLoadData]
    split_ifs <;> intro h <;> simp_all [fullyInitialized, blankModule]
  · intro env h
    revert h
    simp only [hipModuleLoadData]
    split_ifs <;> intro h <;> simp_all [fullyInitialized, blankModule]
  · intro env h
    revert h
    simp only [hipModuleLoadData]
    split_ifs <;> intro h <;> simp_all

/-- Witness for the amended C3: the failing deserialize run stores a module
that is not fully initialized, and the fully successful run stores the fully
initialized module (with the allocation sized at `ElfSize img0 = 103`). -/
theorem claim_C3_witness :
    fullyInitialized
      { execCreated := true, ptrSet := true, sizeVal := some 103,
        objectSet := true, codeLoaded := true, frozen := true } ∧
    (hipModuleLoadData dataEnvBad).1 = hipErrorSharedObjectInitFailed := by
  constructor
  · obtain ⟨m, hm, hf⟩ := claim_C3_amended.2.2.2.1 dataEnvOk (by decide)
    have hM : (hipModuleLoadData dataEnvOk).2 = some
        { execCreated := true, ptrSet := true, sizeVal := some 103,
          objectSet := true, codeLoaded := true, frozen := true } := by decide
    rw [hM] at hm
    rw [Option.some.inj hm]
    exact hf
  · decide

/-! ### Claim C9: `hipModuleGetGlobal` on an absent symbol -/

/-- Claim C9 evaluated at the failing input: looking up global `gvar` on a
module whose image and executable lack it.  The inner `ihipModuleGetSymbol`
returns `hipErrorNotFound`, but `hipModuleGetGlobal` discards that status and
returns `hipSuccess`, with a device pointer read from the uninitialized local
`hipFunction_t` (modelled as the indeterminate value 57005) and a size of
`0 + sizeof(amd_kernel_code_t)`.  The claim — that the call reports "not
found" — is what the surrounding error taxonomy requires; the code drops the
status on the floor. -/
theorem claim_C9_code_bug_eval :
    execEmpty.hasSymbol "gvar" = false ∧
    (ihipModuleGetSymbol execEmpty true modEmpty.cache (some "gvar")).1 =
      hipErrorNotFound ∧
    hipModuleGetGlobal getGlobalEnv0 false false (some modEmpty) (some "gvar") =
      (hipSuccess, some (57005, 256)) := by
  decide

/-! ### Claim C10: `hipModuleLoadDataEx` refines `hipModuleLoadData` -/

/-- Claim C10: for every module out-pointer, image and option arguments,
`hipModuleLoadDataEx` returns exactly the result of `hipModuleLoadData` on
the same out-pointer and image, with identical effects; `numOptions`,
`options` and `optionValues` are ignored entirely. -/
theorem claim_C10_loadDataEx_is_loadData :
    ∀ (env : DataLoadEnv) (numOptions : Nat) (options optionValues : List Nat),
      hipModuleLoadDataEx env numOptions options optionValues = hipModuleLoadData env :=
  fun _ _ _ _ => rfl

end HipModule
